import Mathlib

/-!
Shallow embedding of the sentiment-analysis pipeline of the
bloomberg-news-scraper repository (src/sentiment_analyzer.py,
src/sentiment_analyzer_correct.py, src/sentiment_analyzer_fixed.py,
src/BERT/BERT_main.py), together with theorems settling the frozen
claims about it.

Text is modelled as `List Char`.  Python floats are modelled as exact
rationals (`ℚ`): every arithmetic step the claims mention (signed-score
difference, threshold comparison, sum/length average) is expressed by
the same operations over `ℚ`.  Python `int` is modelled as `ℤ`.
A pandas cell is `CellValue`: `na` (NaN / missing), a string, or a
non-string scalar.  Exceptions are modelled with `Except PyErr`; the
external model call (which may throw) is a state-transition function
returning `Option ProbTriple`, `none` standing for a raised exception,
so that a call-counting scorer can be instantiated by choosing the
state type.
-/

/-- Python's whitespace class `\s` (the characters relevant to this
code base: ASCII whitespace and the ideographic space U+3000). -/
def isPySpace (c : Char) : Bool :=
  c = ' ' || c = '\t' || c = '\n' || c = '\r' || c = '\x0b' || c = '\x0c' || c = '　'

/-- Worker for `collapseWS`.  The flag records whether the previous
input character belonged to a whitespace run that has already emitted
its single replacement space. -/
def collapseGo : Bool → List Char → List Char
  | _, [] => []
  | inRun, c :: cs =>
    if isPySpace c then
      if inRun then collapseGo true cs else ' ' :: collapseGo true cs
    else c :: collapseGo false cs

/-- `re.sub(r'\s+', ' ', text)`: each maximal run of whitespace is
replaced by a single ASCII space (src/sentiment_analyzer.py line 36). -/
def collapseWS (l : List Char) : List Char :=
  collapseGo false l

/-- Python `str.strip()`: drop whitespace from both ends. -/
def pyStrip (l : List Char) : List Char :=
  ((l.dropWhile isPySpace).reverse.dropWhile isPySpace).reverse

/-- `SentimentAnalyzer.clean_text` (src/sentiment_analyzer.py lines
29-39) applied to a present string: empty input is returned as is,
otherwise whitespace runs are collapsed and the ends stripped. -/
def clean_text (l : List Char) : List Char :=
  if l = [] then [] else pyStrip (collapseWS l)

/-- The ASCII core of Python's `\w` (word character). -/
def isWordChar (c : Char) : Bool :=
  c.isAlphanum || c = '_'

/-- The allow-list of `re.sub(r'[^\w\s぀-ゟ゠-ヿ一-龯　-〿]', '', text)`
in src/sentiment_analyzer_correct.py line 37: word characters,
whitespace, and the listed Japanese script ranges. -/
def isAllowedChar (c : Char) : Bool :=
  isWordChar c || isPySpace c ||
    (0x3040 ≤ c.toNat && c.toNat ≤ 0x309F) ||
    (0x30A0 ≤ c.toNat && c.toNat ≤ 0x30FF) ||
    (0x4E00 ≤ c.toNat && c.toNat ≤ 0x9FAF) ||
    (0x3000 ≤ c.toNat && c.toNat ≤ 0x303F)

/-- `CorrectSentimentAnalyzer.clean_text` (src/sentiment_analyzer_correct.py
lines 29-38): strip, collapse whitespace runs, delete characters outside
the allow-list, strip again. -/
def clean_text_correct (l : List Char) : List Char :=
  if l = [] then []
  else pyStrip ((collapseWS (pyStrip l)).filter isAllowedChar)

/-- Python `str.split(sep)` with a one-character separator: keeps empty
pieces, `"".split(sep) == [""]`. -/
def pySplit (delim : Char) : List Char → List (List Char)
  | [] => [[]]
  | c :: cs =>
    match pySplit delim cs with
    | [] => [[]]
    | h :: t => if c = delim then [] :: h :: t else (c :: h) :: t

/-- The Item Splitter of `SentimentAnalyzer.analyze_news_titles`
(src/sentiment_analyzer.py lines 92-94): split on `'|'`, clean each
piece, drop the pieces that clean to empty. -/
def bundleTitles (s : List Char) : List (List Char) :=
  ((pySplit '|' s).map clean_text).filter (fun t => t ≠ [])

/-- The three sentiment classes. -/
inductive Sentiment where
  | positive : Sentiment
  | negative : Sentiment
  | neutral : Sentiment
deriving DecidableEq

/-- The per-item classification of `FixedSentimentAnalyzer.analyze_news_titles`
(src/sentiment_analyzer_fixed.py lines 107-112): `score > 0.1` is
positive, `score < -0.1` is negative, everything else neutral.  The
count predicates of src/sentiment_analyzer.py lines 114-115 use the
same two comparisons. -/
def classify_score (score : ℚ) : Sentiment :=
  if score > (1:ℚ)/10 then .positive
  else if score < -((1:ℚ)/10) then .negative
  else .neutral

/-- The probability triple produced by the external model, in the
source's output order `[neutral, negative, positive]`
(src/sentiment_analyzer.py lines 57-60). -/
structure ProbTriple where
  neutral : ℚ
  negative : ℚ
  positive : ℚ
deriving DecidableEq

/-- The signed sentiment score `positive_prob - negative_prob`
(src/sentiment_analyzer.py line 63; src/BERT/BERT_main.py line 56). -/
def signed_score (p : ProbTriple) : ℚ :=
  p.positive - p.negative

/-- The dictionary returned by `SentimentAnalyzer.get_sentiment_score`
(src/sentiment_analyzer.py lines 44-49 and 65-70). -/
structure ScoreData where
  sentiment_score : ℚ
  positive_prob : ℚ
  negative_prob : ℚ
  neutral_prob : ℚ
deriving DecidableEq

/-- The all-zero reading returned on empty input or scorer failure. -/
def zeroScoreData : ScoreData :=
  { sentiment_score := 0, positive_prob := 0, negative_prob := 0, neutral_prob := 0 }

/-- The External Scorer as a state machine over an arbitrary state type:
one invocation consumes the state and yields `some` probability triple,
or `none` when the underlying model call raises.  Instantiating the
state with `ℕ` gives a call-counting stub scorer. -/
def Scorer (σ : Type) : Type :=
  σ → List Char → Option ProbTriple × σ

/-- `SentimentAnalyzer.get_sentiment_score` (src/sentiment_analyzer.py
lines 41-78): empty or whitespace-only text short-circuits to the zero
reading without invoking the External Scorer; a raised model call is
caught and also degrades to the zero reading; otherwise the probability
triple is unpacked and the signed score is `positive - negative`. -/
def get_sentiment_score (scorer : Scorer σ) (st : σ) (text : List Char) :
    ScoreData × σ :=
  if text = [] ∨ pyStrip text = [] then (zeroScoreData, st)
  else
    match scorer st text with
    | (some p, st') =>
      ({ sentiment_score := signed_score p
       , positive_prob := p.positive
       , negative_prob := p.negative
       , neutral_prob := p.neutral }, st')
    | (none, st') => (zeroScoreData, st')

/-- The scoring loop of `analyze_news_titles`
(src/sentiment_analyzer.py lines 107-110): score every title in order,
collecting the `sentiment_score` entries and threading the scorer. -/
def scoreAll (scorer : Scorer σ) : σ → List (List Char) → List ℚ × σ
  | st, [] => ([], st)
  | st, t :: ts =>
    ((get_sentiment_score scorer st t).1.sentiment_score ::
        (scoreAll scorer (get_sentiment_score scorer st t).2 ts).1,
      (scoreAll scorer (get_sentiment_score scorer st t).2 ts).2)

/-- The dictionary returned by `SentimentAnalyzer.analyze_news_titles`
(src/sentiment_analyzer.py lines 118-125). -/
structure BundleResult where
  avg_sentiment_score : ℚ
  positive_count : ℤ
  negative_count : ℤ
  neutral_count : ℤ
  total_titles : ℤ
  individual_scores : List ℚ
deriving DecidableEq

/-- The all-zero bundle result (src/sentiment_analyzer.py lines 83-90). -/
def zeroBundle : BundleResult :=
  { avg_sentiment_score := 0, positive_count := 0, negative_count := 0
  , neutral_count := 0, total_titles := 0, individual_scores := [] }

/-- Body of `SentimentAnalyzer.analyze_news_titles` for a string input
(src/sentiment_analyzer.py lines 80-125): empty string or no surviving
titles gives the zero result; otherwise every title is scored and the
statistics of lines 112-116 are computed (`neutral_count` is a
subtraction, exactly as in the source). -/
def analyze_titles_str (scorer : Scorer σ) (st : σ) (s : List Char) :
    BundleResult × σ :=
  if s = [] then (zeroBundle, st)
  else
    let titles := bundleTitles s
    if titles = [] then (zeroBundle, st)
    else
      let scores := (scoreAll scorer st titles).1
      ({ avg_sentiment_score := scores.sum / (scores.length : ℚ)
       , positive_count := ((scores.filter (fun q => (1:ℚ)/10 < q)).length : ℤ)
       , negative_count := ((scores.filter (fun q => q < -((1:ℚ)/10))).length : ℤ)
       , neutral_count := (scores.length : ℤ)
           - ((scores.filter (fun q => (1:ℚ)/10 < q)).length : ℤ)
           - ((scores.filter (fun q => q < -((1:ℚ)/10))).length : ℤ)
       , total_titles := (titles.length : ℤ)
       , individual_scores := scores }, (scoreAll scorer st titles).2)

/-- A pandas cell as seen by this code: NaN/missing, a string, or a
non-string scalar (e.g. a parsed number). -/
inductive CellValue where
  | na : CellValue
  | str : List Char → CellValue
  | num : ℚ → CellValue
deriving DecidableEq

/-- The Python exceptions this pipeline can actually raise. -/
inductive PyErr where
  | attributeError : PyErr
  | keyError : PyErr
deriving DecidableEq

/-- `SentimentAnalyzer.analyze_news_titles` on a pandas cell
(src/sentiment_analyzer.py lines 80-125): NaN short-circuits to the
zero result at the `pd.isna` guard; a non-string scalar passes the
guard and then raises `AttributeError` at `news_titles.split('|')`
(line 93), which nothing in this function catches. -/
def analyze_news_titles (scorer : Scorer σ) (st : σ) :
    CellValue → Except PyErr (BundleResult × σ)
  | .na => .ok (zeroBundle, st)
  | .num _ => .error .attributeError
  | .str s => .ok (analyze_titles_str scorer st s)

/-- A dataset row: an association list from column labels to cells. -/
def Row : Type :=
  List (String × CellValue)

/-- Label lookup in a row (pandas `row[label]` / `row.get`). -/
def rowLookup (r : Row) (k : String) : Option CellValue :=
  match r with
  | [] => none
  | (k', v) :: t => if k' = k then some v else rowLookup t k

/-- The five sentiment columns appended to each output row
(src/sentiment_analyzer.py lines 153-159). -/
structure SentimentFields where
  avg_sentiment_score : ℚ
  positive_count : ℤ
  negative_count : ℤ
  neutral_count : ℤ
  total_titles : ℤ
deriving DecidableEq

/-- One iteration of the row loop of `process_csv_with_sentiment`
(src/sentiment_analyzer.py lines 147-159): the progress print first
reads `row['date']` (line 148, `KeyError` when the column is absent),
then the bundle cell is fetched with `row.get('news_titles', '')` and
analyzed; any exception escapes — there is no per-row handler. -/
def processRow (scorer : Scorer σ) (st : σ) (r : Row) :
    Except PyErr (SentimentFields × σ) :=
  match rowLookup r "date" with
  | none => .error .keyError
  | some _ =>
    match analyze_news_titles scorer st ((rowLookup r "news_titles").getD (.str [])) with
    | .error e => .error e
    | .ok (b, st') =>
      .ok ({ avg_sentiment_score := b.avg_sentiment_score
           , positive_count := b.positive_count
           , negative_count := b.negative_count
           , neutral_count := b.neutral_count
           , total_titles := b.total_titles }, st')

/-- `process_csv_with_sentiment` (src/sentiment_analyzer.py lines
144-172) on an in-memory dataset: rows are processed in order, each
result dictionary is appended to `sentiment_results`, and the final
`pd.concat([df, sentiment_df], axis=1)` pairs every original row with
its five new columns.  An exception in any row aborts the whole loop,
since the loop body has no try/except. -/
def process_csv_with_sentiment (scorer : Scorer σ) (st : σ) :
    List Row → Except PyErr (List (Row × SentimentFields))
  | [] => .ok []
  | r :: rs =>
    match processRow scorer st r with
    | .error e => .error e
    | .ok (f, st') =>
      match process_csv_with_sentiment scorer st' rs with
      | .error e => .error e
      | .ok out => .ok ((r, f) :: out)

/-- A call-counting stub scorer whose every invocation raises
(`Option` value `none`); the natural-number state counts calls. -/
def failingScorer : Scorer ℕ :=
  fun n _ => (none, n + 1)

/-- A call-counting stub scorer that raises on exactly its second call
(call index 1) and otherwise returns the triple `f n` for call index
`n`. -/
def failSecondScorer (f : ℕ → ProbTriple) : Scorer ℕ :=
  fun n _ => (if n = 1 then none else some (f n), n + 1)

/-- A call-counting stub scorer returning a fixed well-formed triple. -/
def constScorer : Scorer ℕ :=
  fun n _ => (some ⟨0, 0, 1⟩, n + 1)

/-- A stub scorer returning a malformed probability triple whose
components sum to `3/2`, not `1`. -/
def badTripleScorer : Scorer Unit :=
  fun u _ => (some ⟨(1:ℚ)/2, (1:ℚ)/10, (9:ℚ)/10⟩, u)

/-- A bundle cell that the Aggregator degrades to the zero result:
NaN/missing, or a string every piece of which normalizes to empty
(this includes the empty string). -/
def cellBundleEmpty : CellValue → Bool
  | .na => true
  | .str s => bundleTitles s = []
  | .num _ => false

/-- A cell the analyzer can process without raising: anything except a
non-string scalar (whose `.split` raises `AttributeError`). -/
def cellTextual : CellValue → Bool
  | .num _ => false
  | _ => true

/-- A row the row loop of `process_csv_with_sentiment` can process
without raising: it has a `date` column (read by the progress print)
and its `news_titles` cell, when present, is not a non-string scalar. -/
def rowWellFormed (r : Row) : Bool :=
  (rowLookup r "date").isSome &&
    cellTextual ((rowLookup r "news_titles").getD (.str []))

/-- A string in the image of whitespace collapsing: every whitespace
character in it is an ASCII space and no two whitespace characters are
adjacent. -/
def Collapsed (l : List Char) : Prop :=
  (∀ c ∈ l, isPySpace c = true → c = ' ') ∧
    List.Chain' (fun a b => ¬(isPySpace a = true ∧ isPySpace b = true)) l

/-! ## Helper lemmas -/

/-- The scoring loop returns one score per title. -/
theorem scoreAll_length (scorer : Scorer σ) :
    ∀ (st : σ) (ts : List (List Char)), (scoreAll scorer st ts).1.length = ts.length := by
  intro st ts
  induction ts generalizing st with
  | nil => rfl
  | cons t ts ih => simp [scoreAll, ih]

/-- For pointwise exclusive predicates, the two filtered lengths sum to
at most the length of the list. -/
theorem length_filter_add_length_filter_le {α : Type} (p q : α → Bool)
    (hpq : ∀ x, p x = true → q x = false) :
    ∀ l : List α, (l.filter p).length + (l.filter q).length ≤ l.length := by
  intro l
  induction l with
  | nil => simp
  | cons a t ih =>
    rcases hp : p a with _ | _
    · rcases hq : q a with _ | _ <;> simp [List.filter_cons, hp, hq] <;> omega
    · have hq := hpq a hp
      simp [List.filter_cons, hp, hq]
      omega

/-! ## Claim theorems -/

/-- C4.  Classification is a pure function of the signed score with the
fixed symmetric thresholds 0.1: positive iff score > 0.1, negative iff
score < -0.1, neutral otherwise; both boundary values classify as
neutral, and 0.10001 classifies as positive. -/
theorem classify_score_thresholds :
    (∀ q : ℚ, classify_score q = .positive ↔ (1:ℚ)/10 < q) ∧
    (∀ q : ℚ, classify_score q = .negative ↔ q < -((1:ℚ)/10)) ∧
    (∀ q : ℚ, classify_score q = .neutral ↔ -((1:ℚ)/10) ≤ q ∧ q ≤ (1:ℚ)/10) ∧
    classify_score ((1:ℚ)/10) = .neutral ∧
    classify_score (-((1:ℚ)/10)) = .neutral ∧
    classify_score ((10001:ℚ)/100000) = .positive := by
  refine ⟨?_, ?_, ?_, ?_, ?_, ?_⟩
  · intro q
    unfold classify_score
    split_ifs with h1 h2 <;> simp_all
  · intro q
    unfold classify_score
    split_ifs with h1 h2 <;> simp_all
    all_goals linarith
  · intro q
    unfold classify_score
    split_ifs with h1 h2 <;> simp_all
  · unfold classify_score
    norm_num
  · unfold classify_score
    norm_num
  · unfold classify_score
    norm_num

/-- C7.  Splitting the bundle `"a|b||  |c"` on `'|'` and normalizing
yields exactly `["a", "b", "c"]`, in input order: the empty piece and
the whitespace-only piece are dropped. -/
theorem bundleTitles_drops_empty_pieces :
    bundleTitles "a|b||  |c".toList = ["a".toList, "b".toList, "c".toList] := by
  decide

/-- C9.  For every probability triple of non-negative components
summing to 1, the signed score `positive - negative` lies in [-1, 1]. -/
theorem signed_score_in_unit_interval (p : ProbTriple)
    (h0 : 0 ≤ p.neutral) (h1 : 0 ≤ p.negative) (h2 : 0 ≤ p.positive)
    (hsum : p.neutral + p.negative + p.positive = 1) :
    -1 ≤ signed_score p ∧ signed_score p ≤ 1 := by
  unfold signed_score
  constructor <;> linarith

/-- Witness for C9 at the concrete triple (0, 0, 1). -/
theorem signed_score_in_unit_interval_witness :
    (0:ℚ) ≤ (ProbTriple.mk 0 0 1).neutral ∧
      (0:ℚ) + 0 + 1 = 1 ∧
      (-1 ≤ signed_score ⟨0, 0, 1⟩ ∧ signed_score ⟨0, 0, 1⟩ ≤ 1) :=
  ⟨by norm_num,
   by norm_num,
   signed_score_in_unit_interval ⟨0, 0, 1⟩ (by norm_num) (by norm_num)
     (by norm_num) (by norm_num)⟩

/-- Counterexample to C2 as stated: a probability triple whose sum is
3/2 (not 1 within any tolerance) is *not* replaced by the neutral
zero-reading — `get_sentiment_score` performs no sum check and returns
the signed score 9/10 - 1/10 = 4/5 computed from the malformed triple. -/
theorem malformed_triple_not_neutralized :
    ((1:ℚ)/2 + (1:ℚ)/10 + (9:ℚ)/10 ≠ 1) ∧
    (get_sentiment_score badTripleScorer () "x".toList).1.sentiment_score = (4:ℚ)/5 ∧
    ((4:ℚ)/5 ≠ 0) := by
  refine ⟨by norm_num, ?_, by norm_num⟩
  have h : ¬("x".toList = [] ∨ pyStrip "x".toList = []) := by decide
  unfold get_sentiment_score
  rw [if_neg h]
  show signed_score ⟨(1:ℚ)/2, (1:ℚ)/10, (9:ℚ)/10⟩ = (4:ℚ)/5
  unfold signed_score
  norm_num

/-- The head of a `dropWhile` result never satisfies the predicate. -/
theorem dropWhile_head_false {α : Type} (p : α → Bool) :
    ∀ (l : List α) (x : α) (xs : List α), l.dropWhile p = x :: xs → p x = false := by
  intro l
  induction l with
  | nil => intro x xs h; simp [List.dropWhile] at h
  | cons a t ih =>
    intro x xs h
    rw [List.dropWhile_cons] at h
    rcases ha : p a with _ | _
    · rw [ha] at h
      simp only [Bool.false_eq_true, if_false] at h
      cases h
      exact ha
    · rw [ha] at h
      simp only [if_true] at h
      exact ih x xs h

/-- A list whose head fails the predicate is fixed by `dropWhile`. -/
theorem dropWhile_eq_self_of_head {α : Type} (p : α → Bool) (l : List α)
    (h : ∀ x xs, l = x :: xs → p x = false) : l.dropWhile p = l := by
  cases l with
  | nil => rfl
  | cons a t =>
    rw [List.dropWhile_cons, h a t rfl]
    simp

/-- A stripped string has no leading whitespace left. -/
theorem dropWhile_pyStrip (l : List Char) :
    (pyStrip l).dropWhile isPySpace = pyStrip l := by
  apply dropWhile_eq_self_of_head
  intro x xs h
  have hpre : pyStrip l <+: l.dropWhile isPySpace := by
    apply List.reverse_suffix.mp
    unfold pyStrip
    rw [List.reverse_reverse]
    exact List.dropWhile_suffix isPySpace
  obtain ⟨rest, hrest⟩ := hpre
  rw [h] at hrest
  exact dropWhile_head_false isPySpace l x (xs ++ rest) hrest.symm

/-- Python `strip` is idempotent. -/
theorem pyStrip_idem (l : List Char) : pyStrip (pyStrip l) = pyStrip l := by
  have h1 : (pyStrip l).dropWhile isPySpace = pyStrip l := dropWhile_pyStrip l
  show ((((pyStrip l).dropWhile isPySpace).reverse).dropWhile isPySpace).reverse = pyStrip l
  rw [h1]
  have h2 : (pyStrip l).reverse = ((l.dropWhile isPySpace).reverse).dropWhile isPySpace := by
    rw [pyStrip, List.reverse_reverse]
  rw [h2, List.dropWhile_idempotent, ← h2, List.reverse_reverse]

/-- `clean_text` output carries no surrounding whitespace. -/
theorem pyStrip_clean_text (x : List Char) : pyStrip (clean_text x) = clean_text x := by
  unfold clean_text
  split_ifs
  · rfl
  · exact pyStrip_idem _

/-- Every title produced by the Item Splitter is non-empty and already
stripped, so the Sentiment Scorer's empty-input guard does not fire on
it. -/
theorem bundleTitles_mem {s t : List Char} (h : t ∈ bundleTitles s) :
    t ≠ [] ∧ pyStrip t = t := by
  unfold bundleTitles at h
  rw [List.mem_filter] at h
  obtain ⟨hmem, hne⟩ := h
  rw [List.mem_map] at hmem
  obtain ⟨x, _, rfl⟩ := hmem
  exact ⟨by simpa using hne, pyStrip_clean_text x⟩

/-- C5.  For a missing (NaN) bundle, and for every bundle string whose
pieces all normalize to empty (the empty string included), the
Aggregator returns the all-zero `BundleResult` and the scorer state is
returned untouched: the External Scorer is never invoked.  The scorer
is universally quantified over an arbitrary state type, so a
call-counting stub scorer (state `ℕ`) instantiates the statement. -/
theorem empty_bundle_zero_result_no_call {σ : Type} (scorer : Scorer σ) (st : σ)
    (cell : CellValue) (h : cellBundleEmpty cell = true) :
    analyze_news_titles scorer st cell = .ok (zeroBundle, st) := by
  cases cell with
  | na => rfl
  | num q => simp [cellBundleEmpty] at h
  | str s =>
    have hb : bundleTitles s = [] := by simpa [cellBundleEmpty] using h
    show Except.ok (analyze_titles_str scorer st s) = _
    unfold analyze_titles_str
    by_cases hs : s = []
    · rw [if_pos hs]
    · rw [if_neg hs]
      simp only [hb, if_true]

/-- Witness for C5: a bundle of whitespace-only and empty pieces, given
to a call-counting scorer in state 7, yields the zero result with the
call count still 7. -/
theorem empty_bundle_zero_result_no_call_witness :
    cellBundleEmpty (.str " |  | ".toList) = true ∧
    analyze_news_titles constScorer 7 (.str " |  | ".toList) =
      .ok (zeroBundle, 7) :=
  ⟨by decide, empty_bundle_zero_result_no_call constScorer 7 _ (by decide)⟩

/-- The positive and negative count predicates of
src/sentiment_analyzer.py lines 114-115 exclude each other, so the two
filtered lengths sum to at most the number of scores. -/
theorem pos_neg_filter_le (l : List ℚ) :
    (l.filter (fun q => (1:ℚ)/10 < q)).length +
      (l.filter (fun q => q < -((1:ℚ)/10))).length ≤ l.length := by
  apply length_filter_add_length_filter_le
  intro x hx
  rw [decide_eq_true_eq] at hx
  rw [decide_eq_false_iff_not]
  intro hlt
  linarith

/-- Explicit form of the non-degenerate branch of `analyze_titles_str`. -/
theorem analyze_titles_str_eq {σ : Type} (scorer : Scorer σ) (st : σ) (s : List Char)
    (hs : s ≠ []) (hb : bundleTitles s ≠ []) :
    analyze_titles_str scorer st s =
      ({ avg_sentiment_score := (scoreAll scorer st (bundleTitles s)).1.sum /
            (((scoreAll scorer st (bundleTitles s)).1.length : ℚ))
       , positive_count := (((scoreAll scorer st (bundleTitles s)).1.filter
            (fun q => (1:ℚ)/10 < q)).length : ℤ)
       , negative_count := (((scoreAll scorer st (bundleTitles s)).1.filter
            (fun q => q < -((1:ℚ)/10))).length : ℤ)
       , neutral_count := ((scoreAll scorer st (bundleTitles s)).1.length : ℤ)
           - (((scoreAll scorer st (bundleTitles s)).1.filter
              (fun q => (1:ℚ)/10 < q)).length : ℤ)
           - (((scoreAll scorer st (bundleTitles s)).1.filter
              (fun q => q < -((1:ℚ)/10))).length : ℤ)
       , total_titles := ((bundleTitles s).length : ℤ)
       , individual_scores := (scoreAll scorer st (bundleTitles s)).1 },
       (scoreAll scorer st (bundleTitles s)).2) := by
  simp only [analyze_titles_str, if_neg hs, if_neg hb]

/-- Count bookkeeping for a string bundle, on the result structure. -/
theorem analyze_titles_str_counts {σ : Type} (scorer : Scorer σ) (st : σ) (s : List Char) :
    (analyze_titles_str scorer st s).1.positive_count +
        (analyze_titles_str scorer st s).1.negative_count +
        (analyze_titles_str scorer st s).1.neutral_count =
      (analyze_titles_str scorer st s).1.total_titles ∧
    0 ≤ (analyze_titles_str scorer st s).1.positive_count ∧
    0 ≤ (analyze_titles_str scorer st s).1.negative_count ∧
    0 ≤ (analyze_titles_str scorer st s).1.neutral_count := by
  by_cases hs : s = []
  · constructor <;> simp [analyze_titles_str, hs, zeroBundle]
  · by_cases hb : bundleTitles s = []
    · constructor <;> simp [analyze_titles_str, hs, hb, zeroBundle]
    · rw [analyze_titles_str_eq scorer st s hs hb]
      have hlen := scoreAll_length scorer st (bundleTitles s)
      have hfil := pos_neg_filter_le (scoreAll scorer st (bundleTitles s)).1
      refine ⟨?_, ?_, ?_, ?_⟩ <;> dsimp only <;> omega

/-- C3.  Every `BundleResult` the aggregation step returns satisfies
`positive_count + negative_count + neutral_count = total_titles`
exactly, with all three counts non-negative — including the zero result
for `total_titles = 0`. -/
theorem counts_partition_total {σ : Type} (scorer : Scorer σ) (st : σ)
    (cell : CellValue) (r : BundleResult) (st' : σ)
    (h : analyze_news_titles scorer st cell = .ok (r, st')) :
    r.positive_count + r.negative_count + r.neutral_count = r.total_titles ∧
    0 ≤ r.positive_count ∧ 0 ≤ r.negative_count ∧ 0 ≤ r.neutral_count := by
  cases cell with
  | na =>
    simp only [analyze_news_titles, Except.ok.injEq, Prod.mk.injEq] at h
    rw [← h.1]
    simp [zeroBundle]
  | num q => simp [analyze_news_titles] at h
  | str s =>
    simp only [analyze_news_titles, Except.ok.injEq] at h
    have hr : r = (analyze_titles_str scorer st s).1 := by
      rw [h]
    rw [hr]
    exact analyze_titles_str_counts scorer st s

/-- Witness for C3 at the missing bundle: the zero result partitions 0
into 0 + 0 + 0. -/
theorem counts_partition_total_witness :
    analyze_news_titles constScorer 0 CellValue.na = .ok (zeroBundle, 0) ∧
    (zeroBundle.positive_count + zeroBundle.negative_count + zeroBundle.neutral_count =
        zeroBundle.total_titles ∧
      0 ≤ zeroBundle.positive_count ∧ 0 ≤ zeroBundle.negative_count ∧
      0 ≤ zeroBundle.neutral_count) :=
  ⟨rfl, counts_partition_total constScorer 0 CellValue.na zeroBundle 0 rfl⟩

/-- C8.  For every bundle with at least one surviving item, the
aggregated average equals the exact sum of the per-item signed scores
divided by the number of items scored, and that number equals
`total_titles`. -/
theorem average_is_sum_div_count {σ : Type} (scorer : Scorer σ) (st : σ) (s : List Char)
    (h : bundleTitles s ≠ []) :
    (analyze_titles_str scorer st s).1.avg_sentiment_score =
        ((analyze_titles_str scorer st s).1.individual_scores).sum /
          (((analyze_titles_str scorer st s).1.individual_scores).length : ℚ) ∧
    (analyze_titles_str scorer st s).1.total_titles =
      (((analyze_titles_str scorer st s).1.individual_scores).length : ℤ) := by
  have hs : s ≠ [] := by
    intro he
    apply h
    rw [he]
    decide
  rw [analyze_titles_str_eq scorer st s hs h]
  exact ⟨rfl, by rw [scoreAll_length]⟩

/-- Witness for C8 at the single-title bundle "a". -/
theorem average_is_sum_div_count_witness :
    bundleTitles "a".toList ≠ [] ∧
    ((analyze_titles_str constScorer 0 "a".toList).1.avg_sentiment_score =
        ((analyze_titles_str constScorer 0 "a".toList).1.individual_scores).sum /
          (((analyze_titles_str constScorer 0 "a".toList).1.individual_scores).length : ℚ) ∧
      (analyze_titles_str constScorer 0 "a".toList).1.total_titles =
        (((analyze_titles_str constScorer 0 "a".toList).1.individual_scores).length : ℤ)) :=
  ⟨by decide, average_is_sum_div_count constScorer 0 "a".toList (by decide)⟩

/-- On non-empty stripped text the Sentiment Scorer always reaches the
External Scorer call. -/
theorem get_sentiment_score_call {σ : Type} (scorer : Scorer σ) (st : σ) (t : List Char)
    (h1 : t ≠ []) (h2 : pyStrip t = t) :
    get_sentiment_score scorer st t =
      match scorer st t with
      | (some p, st') =>
        ({ sentiment_score := signed_score p, positive_prob := p.positive,
           negative_prob := p.negative, neutral_prob := p.neutral }, st')
      | (none, st') => (zeroScoreData, st') := by
  have hc : ¬(t = [] ∨ pyStrip t = []) := by
    rintro (he | he)
    · exact h1 he
    · rw [h2] at he
      exact h1 he
  unfold get_sentiment_score
  rw [if_neg hc]

/-- A non-failing call of the fail-on-second-call stub scorer. -/
theorem get_failSecond_ok (f : ℕ → ProbTriple) (n : ℕ) (t : List Char)
    (h1 : t ≠ []) (h2 : pyStrip t = t) (hn : n ≠ 1) :
    get_sentiment_score (failSecondScorer f) n t =
      ({ sentiment_score := signed_score (f n), positive_prob := (f n).positive,
         negative_prob := (f n).negative, neutral_prob := (f n).neutral }, n + 1) := by
  rw [get_sentiment_score_call _ _ _ h1 h2]
  simp [failSecondScorer, hn]

/-- The failing (second) call of the fail-on-second-call stub scorer is
caught and degrades to the zero reading. -/
theorem get_failSecond_err (f : ℕ → ProbTriple) (t : List Char)
    (h1 : t ≠ []) (h2 : pyStrip t = t) :
    get_sentiment_score (failSecondScorer f) 1 t = (zeroScoreData, 2) := by
  rw [get_sentiment_score_call _ _ _ h1 h2]
  simp [failSecondScorer]

/-- Exclusive filters with a witness member satisfying neither leave at
least one element uncounted. -/
theorem length_filter_with_neutral {α : Type} (p q : α → Bool)
    (hpq : ∀ x, p x = true → q x = false)
    (l : List α) (x : α) (hx : x ∈ l) (hpx : p x = false) (hqx : q x = false) :
    (l.filter p).length + (l.filter q).length + 1 ≤ l.length := by
  induction l with
  | nil => cases hx
  | cons a t ih =>
    rcases List.mem_cons.mp hx with rfl | hx2
    · have hb := length_filter_add_length_filter_le p q hpq t
      simp [List.filter_cons, hpx, hqx]
      omega
    · have hone := ih hx2
      rcases hp : p a with _ | _
      · rcases hq : q a with _ | _ <;> simp [List.filter_cons, hp, hq] <;> omega
      · have hq := hpq a hp
        simp [List.filter_cons, hp, hq]
        omega

/-- In a three-score list whose middle score is 0, the positive and
negative tallies leave at least one neutral item. -/
theorem middle_zero_neutral (x z : ℚ) :
    (([x, 0, z].filter (fun q => (1:ℚ)/10 < q)).length) +
      (([x, 0, z].filter (fun q => q < -((1:ℚ)/10))).length) + 1 ≤ 3 := by
  have key := length_filter_with_neutral (fun q => decide ((1:ℚ)/10 < q))
      (fun q => decide (q < -((1:ℚ)/10)))
      (fun y hy => by
        rw [decide_eq_true_eq] at hy
        rw [decide_eq_false_iff_not]
        intro h2
        linarith)
      [x, 0, z] 0 (by simp)
      (by rw [decide_eq_false_iff_not]; norm_num)
      (by rw [decide_eq_false_iff_not]; norm_num)
  simpa using key

/-- Amended C2.  The Sentiment Scorer catches a raised External Scorer
call and returns the zero reading (no probability-sum check is made),
and consequently a scorer that raises on exactly its second call, fed a
bundle of three items, still yields a `BundleResult` with
`total_titles = 3` and `neutral_count ≥ 1`. -/
theorem scorer_failure_on_second_call_isolated (f : ℕ → ProbTriple) (s : List Char)
    (h3 : (bundleTitles s).length = 3) :
    (∀ {σ : Type} (scorer : Scorer σ) (st : σ) (t : List Char),
        (scorer st t).1 = none → (get_sentiment_score scorer st t).1 = zeroScoreData) ∧
    (analyze_titles_str (failSecondScorer f) 0 s).1.total_titles = 3 ∧
    1 ≤ (analyze_titles_str (failSecondScorer f) 0 s).1.neutral_count := by
  constructor
  · intro σ scorer st t hnone
    unfold get_sentiment_score
    by_cases hcond : t = [] ∨ pyStrip t = []
    · rw [if_pos hcond]
    · rw [if_neg hcond]
      rcases hsc : scorer st t with ⟨o, st2⟩
      rw [hsc] at hnone
      cases o with
      | none => rfl
      | some p => simp at hnone
  · obtain ⟨a, b, c, habc⟩ := List.length_eq_three.mp h3
    have hs : s ≠ [] := by
      intro he
      rw [he, (by decide : bundleTitles [] = [])] at habc
      simp at habc
    have hb : bundleTitles s ≠ [] := by
      rw [habc]
      simp
    have ha' := bundleTitles_mem (s := s) (t := a) (by rw [habc]; simp)
    have hb' := bundleTitles_mem (s := s) (t := b) (by rw [habc]; simp)
    have hc' := bundleTitles_mem (s := s) (t := c) (by rw [habc]; simp)
    rw [analyze_titles_str_eq _ _ _ hs hb, habc]
    have g0 := get_failSecond_ok f 0 a ha'.1 ha'.2 (by omega)
    have g1 := get_failSecond_err f b hb'.1 hb'.2
    have g2 := get_failSecond_ok f 2 c hc'.1 hc'.2 (by omega)
    have hsc : (scoreAll (failSecondScorer f) 0 [a, b, c]).1
        = [signed_score (f 0), 0, signed_score (f 2)] := by
      simp [scoreAll, g0, g1, g2, zeroScoreData]
    rw [hsc]
    constructor
    · simp
    · have hmid := middle_zero_neutral (signed_score (f 0)) (signed_score (f 2))
      have hlen3 : ([signed_score (f 0), 0, signed_score (f 2)] : List ℚ).length = 3 := rfl
      dsimp only
      push_cast [hlen3]
      omega

/-- Witness for amended C2 at the bundle "a|b|c" with a stub scorer
returning the all-zero triple on its non-failing calls. -/
theorem scorer_failure_on_second_call_isolated_witness :
    (bundleTitles "a|b|c".toList).length = 3 ∧
    ((∀ {σ : Type} (scorer : Scorer σ) (st : σ) (t : List Char),
        (scorer st t).1 = none → (get_sentiment_score scorer st t).1 = zeroScoreData) ∧
      (analyze_titles_str (failSecondScorer (fun _ => ⟨0, 0, 0⟩)) 0
          "a|b|c".toList).1.total_titles = 3 ∧
      1 ≤ (analyze_titles_str (failSecondScorer (fun _ => ⟨0, 0, 0⟩)) 0
          "a|b|c".toList).1.neutral_count) :=
  ⟨by decide,
   scorer_failure_on_second_call_isolated (fun _ => ⟨0, 0, 0⟩) "a|b|c".toList (by decide)⟩

/-- Counterexample to C1 as stated: a dataset whose single row carries a
numeric (non-string, non-NaN) `news_titles` cell makes the Aggregator
raise `AttributeError` at `.split('|')`; the Row Processor has no
per-row handler, so the run aborts with the error instead of emitting a
zero `BundleResult` for the row and continuing. -/
theorem row_exception_aborts_run :
    process_csv_with_sentiment constScorer 0
      [[("date", CellValue.str "d".toList), ("news_titles", CellValue.num 5)]] =
      Except.error PyErr.attributeError := by
  rfl

/-- Counterexample to C6 as stated: a dataset row without a `date`
column makes the progress print of the row loop raise `KeyError`, so no
output row at all is produced for this one-row dataset. -/
theorem missing_column_aborts_run :
    process_csv_with_sentiment constScorer 0
      [[("news_titles", CellValue.str "a".toList)]] =
      Except.error PyErr.keyError := by
  rfl

/-- A well-formed row processes without raising. -/
theorem processRow_ok {σ : Type} (scorer : Scorer σ) (st : σ) (r : Row)
    (h : rowWellFormed r = true) :
    ∃ f st', processRow scorer st r = .ok (f, st') := by
  unfold rowWellFormed at h
  rw [Bool.and_eq_true] at h
  obtain ⟨hd, hc⟩ := h
  obtain ⟨d, hdate⟩ := Option.isSome_iff_exists.mp hd
  unfold processRow
  rw [hdate]
  cases hcell : (rowLookup r "news_titles").getD (.str []) with
  | na => exact ⟨_, _, rfl⟩
  | str s => exact ⟨_, _, rfl⟩
  | num q =>
    rw [hcell] at hc
    simp [cellTextual] at hc

/-- On a dataset of well-formed rows the row loop completes and pairs
every original row, in order, with its five new columns. -/
theorem process_ok_map {σ : Type} (scorer : Scorer σ) :
    ∀ (rows : List Row) (st : σ), (∀ r ∈ rows, rowWellFormed r = true) →
      ∃ out, process_csv_with_sentiment scorer st rows = .ok out ∧
        out.map Prod.fst = rows := by
  intro rows
  induction rows with
  | nil => exact fun st _ => ⟨[], rfl, rfl⟩
  | cons r rs ih =>
    intro st hwf
    obtain ⟨f, st', hr⟩ := processRow_ok scorer st r (hwf r (List.mem_cons_self r rs))
    obtain ⟨out, hout, hmap⟩ := ih st' (fun x hx => hwf x (List.mem_cons_of_mem r hx))
    refine ⟨(r, f) :: out, ?_, by simp [hmap]⟩
    simp only [process_csv_with_sentiment, hr, hout]

/-- Amended C6.  For every dataset whose rows all carry a `date` column
and whose bundle cells are strings or missing, the Row Processor
produces exactly one output row per input row, in input order, each
output pairing the untouched original row with the five sentiment
fields. -/
theorem one_output_row_per_input_row {σ : Type} (scorer : Scorer σ) (st : σ)
    (rows : List Row) (hwf : ∀ r ∈ rows, rowWellFormed r = true) :
    ∃ out, process_csv_with_sentiment scorer st rows = .ok out ∧
      out.map Prod.fst = rows ∧ out.length = rows.length := by
  obtain ⟨out, h1, h2⟩ := process_ok_map scorer rows st hwf
  exact ⟨out, h1, h2, by rw [← h2, List.length_map]⟩

/-- Witness for amended C6 on a concrete two-row dataset. -/
theorem one_output_row_per_input_row_witness :
    (∀ r ∈ ([[("date", CellValue.str "d".toList)],
             [("date", CellValue.str "e".toList), ("news_titles", CellValue.na)]] : List Row),
        rowWellFormed r = true) ∧
    (∃ out, process_csv_with_sentiment constScorer 0
        ([[("date", CellValue.str "d".toList)],
          [("date", CellValue.str "e".toList), ("news_titles", CellValue.na)]] : List Row) =
        .ok out ∧
      out.map Prod.fst =
        ([[("date", CellValue.str "d".toList)],
          [("date", CellValue.str "e".toList), ("news_titles", CellValue.na)]] : List Row) ∧
      out.length =
        ([[("date", CellValue.str "d".toList)],
          [("date", CellValue.str "e".toList), ("news_titles", CellValue.na)]] : List Row).length) :=
  ⟨by decide, one_output_row_per_input_row constScorer 0 _ (by decide)⟩

/-- Under the always-failing scorer every reading is the zero reading. -/
theorem get_failing_fst (st : ℕ) (t : List Char) :
    (get_sentiment_score failingScorer st t).1 = zeroScoreData := by
  unfold get_sentiment_score failingScorer
  by_cases hcond : t = [] ∨ pyStrip t = []
  · rw [if_pos hcond]
  · rw [if_neg hcond]

/-- Under the always-failing scorer the score list is all zeros. -/
theorem scoreAll_failing_fst :
    ∀ (st : ℕ) (ts : List (List Char)),
      (scoreAll failingScorer st ts).1 = List.replicate ts.length 0 := by
  intro st ts
  induction ts generalizing st with
  | nil => rfl
  | cons t ts ih =>
    simp [scoreAll, get_failing_fst, ih, List.replicate_succ, zeroScoreData]

/-- Filtering a replicated element that fails the predicate gives the
empty list. -/
theorem filter_replicate_false {α : Type} (p : α → Bool) (a : α) (ha : p a = false) :
    ∀ n, (List.replicate n a).filter p = [] := by
  intro n
  induction n with
  | zero => rfl
  | succ n ih => simp [List.replicate_succ, List.filter_cons, ha, ih]

/-- Under the always-failing scorer every bundle degrades to zero
average, zero positive and negative counts, and an all-neutral tally. -/
theorem analyze_titles_failing_fields (st : ℕ) (s : List Char) :
    (analyze_titles_str failingScorer st s).1.positive_count = 0 ∧
    (analyze_titles_str failingScorer st s).1.negative_count = 0 ∧
    (analyze_titles_str failingScorer st s).1.avg_sentiment_score = 0 ∧
    (analyze_titles_str failingScorer st s).1.neutral_count =
      (analyze_titles_str failingScorer st s).1.total_titles := by
  have hp0 := filter_replicate_false (fun q => decide ((1:ℚ)/10 < q)) (0:ℚ)
      (by rw [decide_eq_false_iff_not]; norm_num)
  have hq0 := filter_replicate_false (fun q => decide ((q:ℚ) < -((1:ℚ)/10))) (0:ℚ)
      (by rw [decide_eq_false_iff_not]; norm_num)
  by_cases hs : s = []
  · refine ⟨?_, ?_, ?_, ?_⟩ <;> simp [analyze_titles_str, hs, zeroBundle]
  · by_cases hb : bundleTitles s = []
    · refine ⟨?_, ?_, ?_, ?_⟩ <;> simp [analyze_titles_str, hs, hb, zeroBundle]
    · rw [analyze_titles_str_eq _ _ _ hs hb, scoreAll_failing_fst]
      refine ⟨?_, ?_, ?_, ?_⟩ <;> dsimp only <;>
        simp [hp0, hq0, List.sum_replicate, List.length_replicate]

/-- A well-formed row processed under the always-failing scorer yields
degraded (all-neutral) fields rather than an exception. -/
theorem processRow_failing (st : ℕ) (r : Row) (h : rowWellFormed r = true) :
    ∃ f st', processRow failingScorer st r = .ok (f, st') ∧
      f.positive_count = 0 ∧ f.negative_count = 0 ∧
      f.avg_sentiment_score = 0 ∧ f.neutral_count = f.total_titles := by
  unfold rowWellFormed at h
  rw [Bool.and_eq_true] at h
  obtain ⟨hd, hc⟩ := h
  obtain ⟨d, hdate⟩ := Option.isSome_iff_exists.mp hd
  unfold processRow
  rw [hdate]
  cases hcell : (rowLookup r "news_titles").getD (.str []) with
  | na => exact ⟨_, _, rfl, rfl, rfl, rfl, rfl⟩
  | num q =>
    rw [hcell] at hc
    simp [cellTextual] at hc
  | str s =>
    obtain ⟨h1, h2, h3, h4⟩ := analyze_titles_failing_fields st s
    exact ⟨_, _, rfl, h1, h2, h3, h4⟩

/-- Amended C1.  The Row Processor has no per-row exception handler —
an exception from the Aggregator chain aborts the run (see the
counterexample) — but External Scorer failures never reach it: they are
caught one level down, inside `get_sentiment_score`, so a run over
well-formed rows completes with one output per row even when *every*
scorer call raises, each row degrading to the zero/neutral reading. -/
theorem scorer_failures_isolated_run_completes (st : ℕ) (rows : List Row)
    (hwf : ∀ r ∈ rows, rowWellFormed r = true) :
    ∃ out, process_csv_with_sentiment failingScorer st rows = .ok out ∧
      out.length = rows.length ∧
      ∀ pr ∈ out, pr.2.positive_count = 0 ∧ pr.2.negative_count = 0 ∧
        pr.2.avg_sentiment_score = 0 ∧ pr.2.neutral_count = pr.2.total_titles := by
  induction rows generalizing st with
  | nil => exact ⟨[], rfl, rfl, by simp⟩
  | cons r rs ih =>
    obtain ⟨f, st', hr, hf1, hf2, hf3, hf4⟩ :=
      processRow_failing st r (hwf r (List.mem_cons_self r rs))
    obtain ⟨out, hout, hlen, hall⟩ :=
      ih st' (fun x hx => hwf x (List.mem_cons_of_mem r hx))
    refine ⟨(r, f) :: out, ?_, by simp [hlen], ?_⟩
    · simp only [process_csv_with_sentiment, hr, hout]
    · intro pr hpr
      rcases List.mem_cons.mp hpr with rfl | hpr2
      · exact ⟨hf1, hf2, hf3, hf4⟩
      · exact hall pr hpr2

/-- Witness for amended C1 on a concrete one-row dataset whose scorer
raises on every call. -/
theorem scorer_failures_isolated_run_completes_witness :
    (∀ r ∈ ([[("date", CellValue.str "d".toList),
              ("news_titles", CellValue.str "x|y".toList)]] : List Row),
        rowWellFormed r = true) ∧
    (∃ out, process_csv_with_sentiment failingScorer 0
        ([[("date", CellValue.str "d".toList),
           ("news_titles", CellValue.str "x|y".toList)]] : List Row) = .ok out ∧
      out.length = ([[("date", CellValue.str "d".toList),
           ("news_titles", CellValue.str "x|y".toList)]] : List Row).length ∧
      ∀ pr ∈ out, pr.2.positive_count = 0 ∧ pr.2.negative_count = 0 ∧
        pr.2.avg_sentiment_score = 0 ∧ pr.2.neutral_count = pr.2.total_titles) :=
  ⟨by decide, scorer_failures_isolated_run_completes 0 _ (by decide)⟩

/-- Counterexample to C10 as stated: `CorrectSentimentAnalyzer.clean_text`
is not idempotent.  On "a . b" the symbol removal (which runs *after*
whitespace collapsing) deletes the '.' and leaves the two surrounding
spaces adjacent, so one application yields "a  b" while a second
application collapses it further to "a b". -/
theorem clean_text_correct_not_idempotent :
    clean_text_correct (clean_text_correct "a . b".toList) ≠
      clean_text_correct "a . b".toList := by
  decide

/-- The head emitted by `collapseGo` in mid-run state is never
whitespace: the run's replacement space has already been emitted. -/
theorem collapseGo_true_head :
    ∀ (l : List Char) (x : Char) (xs : List Char),
      collapseGo true l = x :: xs → isPySpace x = false := by
  intro l
  induction l with
  | nil =>
    intro x xs h
    simp [collapseGo] at h
  | cons c cs ih =>
    intro x xs h
    rcases hc : isPySpace c with _ | _
    · rw [show collapseGo true (c :: cs) = c :: collapseGo false cs by
        simp [collapseGo, hc]] at h
      cases h
      exact hc
    · rw [show collapseGo true (c :: cs) = collapseGo true cs by
        simp [collapseGo, hc]] at h
      exact ih x xs h

/-- Whitespace collapsing outputs only collapsed strings. -/
theorem collapsed_collapseGo :
    ∀ (l : List Char) (b : Bool), Collapsed (collapseGo b l) := by
  intro l
  induction l with
  | nil =>
    intro b
    exact ⟨by simp [collapseGo], by simp [collapseGo]⟩
  | cons c cs ih =>
    intro b
    rcases hc : isPySpace c with _ | _
    · rw [show collapseGo b (c :: cs) = c :: collapseGo false cs by
        cases b <;> simp [collapseGo, hc]]
      obtain ⟨ihm, ihch⟩ := ih false
      constructor
      · intro d hd hsp
        rcases List.mem_cons.mp hd with rfl | hd2
        · rw [hc] at hsp
          cases hsp
        · exact ihm d hd2 hsp
      · rw [List.chain'_cons']
        refine ⟨?_, ihch⟩
        intro y _ hand
        rw [hc] at hand
        exact absurd hand.1 (by simp)
    · cases b with
      | true =>
        rw [show collapseGo true (c :: cs) = collapseGo true cs by
          simp [collapseGo, hc]]
        exact ih true
      | false =>
        rw [show collapseGo false (c :: cs) = ' ' :: collapseGo true cs by
          simp [collapseGo, hc]]
        obtain ⟨ihm, ihch⟩ := ih true
        constructor
        · intro d hd hsp
          rcases List.mem_cons.mp hd with rfl | hd2
          · rfl
          · exact ihm d hd2 hsp
        · rw [List.chain'_cons']
          refine ⟨?_, ihch⟩
          intro y hy hand
          have hyf : isPySpace y = false := by
            cases hgo : collapseGo true cs with
            | nil =>
              rw [hgo] at hy
              cases hy
            | cons z zs =>
              rw [hgo] at hy
              have hyz : z = y := by simpa using hy
              subst hyz
              exact collapseGo_true_head cs z zs hgo
          rw [hyf] at hand
          exact absurd hand.2 (by simp)

/-- Collapsed strings are fixed points of whitespace collapsing. -/
theorem collapseGo_eq_self :
    ∀ (m : List Char), Collapsed m →
      collapseGo false m = m ∧
      (∀ x xs, m = x :: xs → isPySpace x = false → collapseGo true m = m) := by
  intro m
  induction m with
  | nil => exact fun _ => ⟨rfl, fun x xs h => by cases h⟩
  | cons c cs ih =>
    intro hcol
    obtain ⟨hm, hch⟩ := hcol
    have hcs : Collapsed cs := ⟨fun d hd => hm d (List.mem_cons_of_mem c hd), hch.tail⟩
    obtain ⟨ihF, ihT⟩ := ih hcs
    constructor
    · rcases hc : isPySpace c with _ | _
      · simp [collapseGo, hc, ihF]
      · have hcsp : c = ' ' := hm c (List.mem_cons_self c cs) hc
        have hhead : ∀ x xs, cs = x :: xs → isPySpace x = false := by
          intro x xs hx
          rw [List.chain'_cons'] at hch
          have hnand := hch.1 x (by rw [hx]; rfl)
          rcases hxs : isPySpace x with _ | _
          · rfl
          · exact absurd ⟨hc, hxs⟩ hnand
        have htrue : collapseGo true cs = cs := by
          cases cs with
          | nil => rfl
          | cons z zs => exact ihT z zs rfl (hhead z zs rfl)
        rw [show collapseGo false (c :: cs) = ' ' :: collapseGo true cs by
          simp [collapseGo, hc]]
        rw [htrue, hcsp]
    · intro x xs hx hxsp
      cases hx
      simp [collapseGo, hxsp, ihF]

/-- Stripping preserves collapsedness. -/
theorem Collapsed_pyStrip (m : List Char) (h : Collapsed m) : Collapsed (pyStrip m) := by
  obtain ⟨hm, hch⟩ := h
  have hswap : ∀ (x y : Char), ¬(isPySpace x = true ∧ isPySpace y = true) →
      ¬(isPySpace y = true ∧ isPySpace x = true) := fun x y hn hp => hn ⟨hp.2, hp.1⟩
  have hsub : pyStrip m ⊆ m := by
    intro x hx
    unfold pyStrip at hx
    rw [List.mem_reverse] at hx
    have hx2 := (List.dropWhile_suffix isPySpace).sublist.subset hx
    rw [List.mem_reverse] at hx2
    exact (List.dropWhile_suffix isPySpace).sublist.subset hx2
  constructor
  · exact fun c hc => hm c (hsub hc)
  · have h1 := hch.suffix (List.dropWhile_suffix isPySpace)
    have h2 := List.chain'_reverse.mpr (h1.imp hswap)
    have h3 := h2.suffix (List.dropWhile_suffix isPySpace)
    have h4 := List.chain'_reverse.mpr (h3.imp hswap)
    exact h4

/-- Amended C10.  `SentimentAnalyzer.clean_text` — whitespace collapsing
followed by stripping, with no symbol removal — is idempotent for every
input string.  (`CorrectSentimentAnalyzer.clean_text` is not; see the
counterexample.) -/
theorem clean_text_idempotent (l : List Char) :
    clean_text (clean_text l) = clean_text l := by
  by_cases h : l = []
  · rw [h]
    rfl
  · have hl : clean_text l = pyStrip (collapseWS l) := by
      unfold clean_text
      rw [if_neg h]
    rw [hl]
    by_cases h2 : pyStrip (collapseWS l) = []
    · rw [h2]
      rfl
    · have h3 : clean_text (pyStrip (collapseWS l)) =
          pyStrip (collapseWS (pyStrip (collapseWS l))) := by
        unfold clean_text
        rw [if_neg h2]
      rw [h3]
      have hc : Collapsed (pyStrip (collapseWS l)) :=
        Collapsed_pyStrip _ (collapsed_collapseGo l false)
      have h4 : collapseWS (pyStrip (collapseWS l)) = pyStrip (collapseWS l) :=
        (collapseGo_eq_self _ hc).1
      rw [show collapseWS (pyStrip (collapseWS l)) = pyStrip (collapseWS l) from h4,
        pyStrip_idem]
